import Mathlib

/-!
# Verification of the SolTrack sun-position pipeline (SolTrack.c)

Shallow embedding of the C routines in `SolTrack.c` / `SolTrack.h` over the
real numbers.  `double` values are modelled as `ℝ`; the numeric literals of
the source denote the real constants they approximate (in particular `PI`,
`TWO_PI`, `MPI` and `R2D` denote the corresponding exact multiples of `π`).
C library functions are modelled as follows:

* `fmod x y` is `fmodC x y = x - y * ctrunc (x / y)` (round towards zero,
  the IEEE/C99 semantics for finite arguments);
* `atan2 y x` is `Complex.arg ⟨x, y⟩`, whose range `(-π, π]` and special
  values (`atan2 0 x = 0` for `x > 0`, `= π` for `x < 0`, `atan2 0 0 = 0`)
  match C `atan2` on finite inputs;
* `asin`, `sqrt`, `sin`, `cos`, `tan` are `Real.arcsin`, `Real.sqrt`, etc.
  Division by zero yields `0` (Lean's convention); all points where the
  verified statements touch a division have nonzero denominators unless
  explicitly discussed.

Each struct of `SolTrack.h` becomes a Lean structure, and each C function a
Lean function of the same name; output pointers become returned tuples or
updated `Position` records.
-/

noncomputable section

open Real

/-- `#define PI 3.14159265358979323846` — the constant denotes `π`. -/
def PI : ℝ := Real.pi

/-- `#define TWO_PI 6.28318530717958647693` — denotes `2π`. -/
def TWO_PI : ℝ := 2 * Real.pi

/-- `#define MPI 3.14159265358979323846e6` — one "Megapi", `10^6 · π`. -/
def MPI : ℝ := 1000000 * Real.pi

/-- `#define R2D 57.2957795130823208768` — radians-to-degrees, `180/π`. -/
def R2D : ℝ := 180 / Real.pi

/-- `#define EARTH_RADIUS 6.3781370e8` (cm). -/
def EARTH_RADIUS : ℝ := 6.3781370e8

/-- `#define AU 1.49597870700e13` (cm). -/
def AU : ℝ := 1.49597870700e13

/-- Truncation towards zero, as used by C `fmod`. -/
def ctrunc (x : ℝ) : ℤ := if 0 ≤ x then ⌊x⌋ else ⌈x⌉

/-- C99 `fmod x y = x - y * trunc (x / y)` (sign of the result follows `x`). -/
def fmodC (x y : ℝ) : ℝ := x - y * ctrunc (x / y)

/-- Mathematical floor-mod: reduces `x` into `[0, y)` for `y > 0`. -/
def posmod (x y : ℝ) : ℝ := x - y * ⌊x / y⌋

/-- C `atan2 y x`, modelled by the argument of the complex number `x + y·i`;
range `(-π, π]`. -/
def atan2 (y x : ℝ) : ℝ := Complex.arg ⟨x, y⟩

/-- `struct Time` of SolTrack.h: date and time, in UT. -/
structure Time where
  year : ℤ
  month : ℤ
  day : ℤ
  hour : ℤ
  minute : ℤ
  second : ℝ

/-- `struct Location` of SolTrack.h. -/
structure Location where
  longitude : ℝ
  latitude : ℝ

/-- `struct Position` of SolTrack.h. -/
structure Position where
  julianDay : ℝ
  dJD : ℝ
  tJC : ℝ
  tJC2 : ℝ
  tJC3 : ℝ
  longitude : ℝ
  distance : ℝ
  obliquity : ℝ
  nutationLon : ℝ
  rightAscension : ℝ
  declination : ℝ
  altitude : ℝ
  altitudeRefract : ℝ
  azimuthRefract : ℝ
  hourAngleRefract : ℝ
  declinationRefract : ℝ

/-- `computeJulianDay` of SolTrack.c (lines 88–101).  `(int)floor(...)` on the
values occurring here is the mathematical floor. -/
def computeJulianDay (year month day hour minute : ℤ) (second : ℝ) : ℝ :=
  let year2 : ℤ := if month ≤ 2 then year - 1 else year
  let month2 : ℤ := if month ≤ 2 then month + 12 else month
  let tmp1 : ℤ := ⌊(year2 : ℝ) / 100⌋
  let tmp2 : ℤ := 2 - tmp1 + ⌊(tmp1 : ℝ) / 4⌋
  let dDay : ℝ := (day : ℝ) + (hour : ℝ) / 24 + (minute : ℝ) / 1440 + second / 86400
  ((⌊(365.25 : ℝ) * ((year2 : ℝ) + 4716)⌋ : ℤ) : ℝ)
    + ((⌊(30.6001 : ℝ) * ((month2 : ℝ) + 1)⌋ : ℤ) : ℝ) + dDay + (tmp2 : ℝ) - 1524.5

/-- Local `l0` of `computeLongitude`: mean longitude of the Sun. -/
def sun_l0 (T T2 : ℝ) : ℝ := 4.895063168 + 628.331966786 * T + 5.291838e-6 * T2

/-- Local `m` of `computeLongitude`: mean anomaly. -/
def sun_m (T T2 : ℝ) : ℝ := 6.240060141 + 628.301955152 * T - 2.682571e-6 * T2

/-- Local `e` of `computeLongitude`: eccentricity of the Earth's orbit. -/
def sun_e (T T2 : ℝ) : ℝ := 0.016708634 - 0.000042037 * T - 0.0000001267 * T2

/-- Local `c` of `computeLongitude`: the Sun's equation of the centre. -/
def sun_c (T T2 : ℝ) : ℝ :=
  (3.34161088e-2 - 8.40725e-5 * T - 2.443e-7 * T2) * Real.sin (sun_m T T2)
    + (3.489437e-4 - 1.76278e-6 * T) * Real.sin (2 * sun_m T T2)
    + 5.044e-6 * Real.sin (3 * sun_m T T2)

/-- Local `odot` of `computeLongitude`: true longitude. -/
def sun_odot (T T2 : ℝ) : ℝ := sun_l0 T T2 + sun_c T T2

/-- Local `nu` of `computeLongitude`: true anomaly. -/
def sun_nu (T T2 : ℝ) : ℝ := sun_m T T2 + sun_c T T2

/-- Local `dist` of `computeLongitude`: geocentric distance of the Sun (AU). -/
def sun_dist (T T2 : ℝ) : ℝ :=
  1.000001018 * (1 - sun_e T T2 * sun_e T T2) / (1 + sun_e T T2 * Real.cos (sun_nu T T2))

/-- Local `omg` of `computeLongitude`: longitude of the Moon's mean ascending
node. -/
def sun_omg (T T2 T3 : ℝ) : ℝ :=
  2.1824390725 - 33.7570464271 * T + 3.622256e-5 * T2 + 3.7337958e-8 * T3
    - 2.879321e-10 * T2 * T2

/-- Local `lm` of `computeLongitude`: mean longitude of the Moon. -/
def sun_lm (T : ℝ) : ℝ := 3.8103417 + 8399.709113 * T

/-- Local `dpsi` of `computeLongitude`: nutation in longitude. -/
def sun_dpsi (T T2 T3 : ℝ) : ℝ :=
  -8.338795e-5 * Real.sin (sun_omg T T2 T3) - 6.39954e-6 * Real.sin (2 * sun_l0 T T2)
    - 1.115e-6 * Real.sin (2 * sun_lm T) + 1.018e-6 * Real.sin (2 * sun_omg T T2 T3)

/-- Local `aber` of `computeLongitude`: aberration. -/
def sun_aber (T T2 : ℝ) : ℝ := -9.93087e-5 / sun_dist T T2

/-- Local `eps0` of `computeLongitude`: mean obliquity of the ecliptic. -/
def sun_eps0 (T T2 T3 : ℝ) : ℝ :=
  0.409092804222 - 2.26965525e-4 * T - 2.86e-9 * T2 + 8.78967e-9 * T3

/-- Local `deps` of `computeLongitude`: nutation in obliquity. -/
def sun_deps (T T2 T3 : ℝ) : ℝ :=
  4.46e-5 * Real.cos (sun_omg T T2 T3) + 2.76e-6 * Real.cos (2 * sun_l0 T T2)
    + 4.848e-7 * Real.cos (2 * sun_lm T) - 4.36e-7 * Real.cos (2 * sun_omg T T2 T3)

/-- `computeLongitude` of SolTrack.c (lines 113–140): writes the `longitude`,
`distance`, `obliquity` and `nutationLon` fields. -/
def computeLongitude (p : Position) : Position :=
  { p with
    longitude := fmodC (sun_odot p.tJC p.tJC2 + sun_aber p.tJC p.tJC2
                          + sun_dpsi p.tJC p.tJC2 p.tJC3 + MPI) TWO_PI
    distance := sun_dist p.tJC p.tJC2
    obliquity := sun_eps0 p.tJC p.tJC2 p.tJC3 + sun_deps p.tJC p.tJC2 p.tJC3
    nutationLon := sun_dpsi p.tJC p.tJC2 p.tJC3 }

/-- `convertEclipticToEquatorial` of SolTrack.c (lines 155–158); returns
(rightAscension, declination). -/
def convertEclipticToEquatorial (longitude obliquity : ℝ) : ℝ × ℝ :=
  (atan2 (Real.cos obliquity * Real.sin longitude) (Real.cos longitude),
   Real.arcsin (Real.sin obliquity * Real.sin longitude))

/-- `eq2horiz` of SolTrack.c (lines 203–220); returns (azimuth, altitude). -/
def eq2horiz (latitude longitude rightAscension declination agst : ℝ) : ℝ × ℝ :=
  let hh := agst + longitude - rightAscension
  let sinhh := Real.sin hh
  let coshh := Real.cos hh
  let sindec := Real.sin declination
  let cosdec := Real.sqrt (1 - sindec * sindec)
  let tandec := sindec / cosdec
  let sinlat := Real.sin latitude
  let coslat := Real.sqrt (1 - sinlat * sinlat)
  (fmodC (atan2 sinhh (coshh * sinlat - tandec * coslat) + MPI) TWO_PI,
   Real.arcsin (sinlat * sindec + coslat * cosdec * coshh))

/-- Local `gmst` of `convertEquatorialToHorizontal`: Greenwich mean sidereal
time. -/
def gmstOf (p : Position) : ℝ :=
  4.89496121273579229 + 6.3003880989849575 * p.dJD + 6.77070812713916e-6 * p.tJC2
    - 4.5087296615715e-10 * p.tJC2 * p.tJC

/-- Local `agst` of `convertEquatorialToHorizontal`: apparent Greenwich
sidereal time. -/
def agstOf (p : Position) : ℝ := gmstOf p + p.nutationLon * Real.cos p.obliquity

/-- `convertEquatorialToHorizontal` of SolTrack.c (lines 171–187): writes
`azimuthRefract` (the uncorrected azimuth), `altitude` (parallax-corrected)
and `altitudeRefract` (parallax- then refraction-corrected). -/
def convertEquatorialToHorizontal (loc : Location) (p : Position) : Position :=
  let azAlt := eq2horiz loc.latitude loc.longitude p.rightAscension p.declination (agstOf p)
  let alt1 := azAlt.2 - Real.arcsin (EARTH_RADIUS / (p.distance * AU)) * Real.cos azAlt.2
  let alt2 := alt1 + 2.9670597e-4 / Real.tan (alt1 + 3.137559e-3 / (alt1 + 8.91863e-2))
  { p with azimuthRefract := azAlt.1, altitude := alt1, altitudeRefract := alt2 }

/-- `convertHorizontalToEquatorial` of SolTrack.c (lines 234–250); returns
(hourAngle, declination). -/
def convertHorizontalToEquatorial (latitude azimuth altitude : ℝ) : ℝ × ℝ :=
  let cosaz := Real.cos azimuth
  let sinaz := Real.sin azimuth
  let sinalt := Real.sin altitude
  let cosalt := Real.sqrt (1 - sinalt * sinalt)
  let tanalt := sinalt / cosalt
  let sinlat := Real.sin latitude
  let coslat := Real.sqrt (1 - sinlat * sinlat)
  (fmodC (atan2 sinaz (cosaz * sinlat + tanalt * coslat) + MPI) TWO_PI,
   Real.arcsin (sinlat * sinalt - coslat * cosalt * cosaz))

/-- `useNorthEqualsZero` of SolTrack.c (lines 264–267); returns the updated
(azimuth, hourAngle).  The hour angle is updated only if `computeEquatorial`
is nonzero (C truthiness of `int`). -/
def useNorthEqualsZero (azimuth hourAngle : ℝ) (computeEquatorial : ℤ) : ℝ × ℝ :=
  (fmodC (azimuth + PI + MPI) TWO_PI,
   if computeEquatorial ≠ 0 then fmodC (hourAngle + PI + MPI) TWO_PI else hourAngle)

/-- `convertRadiansToDegrees` of SolTrack.c (lines 283–290); returns the
updated (azimuth, altitude, hourAngle, declination). -/
def convertRadiansToDegrees (azimuth altitude hourAngle declination : ℝ)
    (computeEquatorial : ℤ) : ℝ × ℝ × ℝ × ℝ :=
  (azimuth * R2D, altitude * R2D,
   if computeEquatorial ≠ 0 then hourAngle * R2D else hourAngle,
   if computeEquatorial ≠ 0 then declination * R2D else declination)

/-- First block of `SolTrack` (lines 40–47): Julian Day and the derived
time expressions `dJD`, `tJC`, `tJC2`, `tJC3`. -/
def updateTimeFields (t : Time) (p : Position) : Position :=
  let jd := computeJulianDay t.year t.month t.day t.hour t.minute t.second
  let d := jd - 2451545.0
  let tj := d / 36525.0
  let tj2 := tj * tj
  let tj3 := tj2 * tj
  { p with julianDay := jd, dJD := d, tJC := tj, tJC2 := tj2, tJC3 := tj3 }

/-- The `convertEclipticToEquatorial` call of `SolTrack` (line 54): writes the
`rightAscension` and `declination` fields. -/
def setEquatorial (p : Position) : Position :=
  { p with
    rightAscension := (convertEclipticToEquatorial p.longitude p.obliquity).1
    declination := (convertEclipticToEquatorial p.longitude p.obliquity).2 }

/-- The position record after the first three stages of `SolTrack` (Julian
Day, `computeLongitude`, `convertEclipticToEquatorial`), i.e. the record that
enters `convertEquatorialToHorizontal`. -/
def posEquatorial (t : Time) (p : Position) : Position :=
  setEquatorial (computeLongitude (updateTimeFields t p))

/-- `SolTrack` of SolTrack.c (lines 37–67), the whole pipeline.  The input
`Position` models the caller's (possibly uninitialised) struct; every stage
only updates the fields the C code writes through the passed pointers. -/
def SolTrack (t : Time) (loc : Location) (p : Position) (computeEquatorial : ℤ) :
    Position :=
  let p5 := convertEquatorialToHorizontal loc (posEquatorial t p)
  let p6 := if computeEquatorial ≠ 0 then
      { p5 with
        hourAngleRefract :=
          (convertHorizontalToEquatorial loc.latitude p5.azimuthRefract p5.altitudeRefract).1
        declinationRefract :=
          (convertHorizontalToEquatorial loc.latitude p5.azimuthRefract p5.altitudeRefract).2 }
    else p5
  let na := useNorthEqualsZero p6.azimuthRefract p6.hourAngleRefract computeEquatorial
  let p7 := { p6 with azimuthRefract := na.1, hourAngleRefract := na.2 }
  let dd := convertRadiansToDegrees p7.azimuthRefract p7.altitudeRefract
              p7.hourAngleRefract p7.declinationRefract computeEquatorial
  { p7 with azimuthRefract := dd.1, altitudeRefract := dd.2.1,
            hourAngleRefract := dd.2.2.1, declinationRefract := dd.2.2.2 }

/-- The Julian centuries since J2000.0 derived from a `Time`, as computed by
the first block of `SolTrack`. -/
def timeTJC (t : Time) : ℝ :=
  (computeJulianDay t.year t.month t.day t.hour t.minute t.second - 2451545.0) / 36525.0

/-- An all-zero `Position` record, used as a concrete initial accumulator. -/
def pos0 : Position := ⟨0, 0, 0, 0, 0, 0, 0, 0, 0, 0, 0, 0, 0, 0, 0, 0⟩

/-- The Gregorian Julian-Day formula exactly as the specification words it:
after replacing `(year, month)` by `(year-1, month+12)` when `month ≤ 2`,
with `a = ⌊year/100⌋` and `b = 2 - a + ⌊a/4⌋`,
`JD = ⌊365.25(year+4716)⌋ + ⌊30.6001(month+1)⌋ + dayFraction + b - 1524.5`. -/
def julianDaySpec (year month day hour minute : ℤ) (second : ℝ) : ℝ :=
  let y : ℤ := if month ≤ 2 then year - 1 else year
  let m : ℤ := if month ≤ 2 then month + 12 else month
  let a : ℤ := ⌊(y : ℝ) / 100⌋
  let b : ℤ := 2 - a + ⌊(a : ℝ) / 4⌋
  ((⌊(365.25 : ℝ) * ((y : ℝ) + 4716)⌋ : ℤ) : ℝ)
    + ((⌊(30.6001 : ℝ) * ((m : ℝ) + 1)⌋ : ℤ) : ℝ)
    + ((day : ℝ) + (hour : ℝ) / 24 + (minute : ℝ) / 1440 + second / 86400)
    + (b : ℝ) - 1524.5

/-! ## Basic lemmas about the modular reductions -/

lemma posmod_eq_fract_smul (x y : ℝ) (hy : y ≠ 0) :
    posmod x y = y * Int.fract (x / y) := by
  unfold posmod Int.fract
  field_simp

lemma posmod_nonneg (x y : ℝ) (hy : 0 < y) : 0 ≤ posmod x y := by
  rw [posmod_eq_fract_smul x y hy.ne']
  exact mul_nonneg hy.le (Int.fract_nonneg _)

lemma posmod_lt (x y : ℝ) (hy : 0 < y) : posmod x y < y := by
  rw [posmod_eq_fract_smul x y hy.ne']
  calc y * Int.fract (x / y) < y * 1 := by
        exact mul_lt_mul_of_pos_left (Int.fract_lt_one _) hy
    _ = y := mul_one y

lemma fmodC_eq_posmod (x y : ℝ) (hx : 0 ≤ x) (hy : 0 < y) :
    fmodC x y = posmod x y := by
  unfold fmodC posmod ctrunc
  rw [if_pos (div_nonneg hx hy.le)]

lemma posmod_add_int_mul (x y : ℝ) (k : ℤ) (hy : y ≠ 0) :
    posmod (x + (k : ℝ) * y) y = posmod x y := by
  unfold posmod
  have h : (x + (k : ℝ) * y) / y = x / y + (k : ℝ) := by
    field_simp
  rw [h, Int.floor_add_int]
  push_cast
  ring

lemma fmodC_nonpos (x y : ℝ) (hx : x < 0) (hy : 0 < y) : fmodC x y ≤ 0 := by
  unfold fmodC ctrunc
  have hdiv : ¬ (0 ≤ x / y) := by
    simp only [not_le]
    exact div_neg_of_neg_of_pos hx hy
  rw [if_neg hdiv]
  have h := Int.le_ceil (x / y)
  have h2 : x / y * y ≤ (⌈x / y⌉ : ℝ) * y := mul_le_mul_of_nonneg_right h hy.le
  rw [div_mul_cancel₀ x hy.ne'] at h2
  linarith

lemma posmod_eq_zero_imp (x y : ℝ) (h : posmod x y = 0) : x = y * ⌊x / y⌋ := by
  unfold posmod at h
  linarith

/-- `MPI` is the even multiple `500000 · 2π` of `TWO_PI`. -/
lemma MPI_eq : MPI = (500000 : ℤ) * TWO_PI := by
  unfold MPI TWO_PI
  push_cast
  ring

lemma TWO_PI_pos : (0 : ℝ) < TWO_PI := by
  unfold TWO_PI
  positivity

/-- Adding `MPI` and reducing with C `fmod` is the positive floor-mod, for any
angle greater than `-MPI`. -/
lemma fmodC_MPI (A : ℝ) (hA : -MPI < A) :
    fmodC (A + MPI) TWO_PI = posmod A TWO_PI := by
  have h0 : (0 : ℝ) ≤ A + MPI := by linarith
  rw [fmodC_eq_posmod _ _ h0 TWO_PI_pos]
  have : A + MPI = A + (500000 : ℤ) * TWO_PI := by rw [← MPI_eq]
  rw [this, posmod_add_int_mul _ _ _ TWO_PI_pos.ne']

lemma neg_MPI_lt_atan2 (y x : ℝ) : -MPI < atan2 y x := by
  have h := Complex.neg_pi_lt_arg ⟨x, y⟩
  have hpi : Real.pi ≤ MPI := by
    unfold MPI
    nlinarith [Real.pi_pos]
  unfold atan2
  linarith

lemma atan2_le_pi (y x : ℝ) : atan2 y x ≤ Real.pi := Complex.arg_le_pi _

/-- The `fmod(... + MPI, TWO_PI)` reduction applied to an `atan2` value lands
in `[0, 2π)`. -/
lemma fmodC_atan2_mem (y x : ℝ) :
    0 ≤ fmodC (atan2 y x + MPI) TWO_PI ∧ fmodC (atan2 y x + MPI) TWO_PI < TWO_PI := by
  rw [fmodC_MPI _ (neg_MPI_lt_atan2 y x)]
  exact ⟨posmod_nonneg _ _ TWO_PI_pos, posmod_lt _ _ TWO_PI_pos⟩

/-! ## Helper lemmas for the Julian-Day computation -/

lemma computeJulianDay_eq_spec (year month day hour minute : ℤ) (second : ℝ) :
    computeJulianDay year month day hour minute second
      = julianDaySpec year month day hour minute second := rfl

lemma SolTrack_time_fields (t : Time) (loc : Location) (p : Position) (ce : ℤ) :
    (SolTrack t loc p ce).julianDay
        = computeJulianDay t.year t.month t.day t.hour t.minute t.second
      ∧ (SolTrack t loc p ce).dJD = (SolTrack t loc p ce).julianDay - 2451545.0
      ∧ (SolTrack t loc p ce).tJC = (SolTrack t loc p ce).dJD / 36525.0
      ∧ (SolTrack t loc p ce).tJC2 = (SolTrack t loc p ce).tJC * (SolTrack t loc p ce).tJC
      ∧ (SolTrack t loc p ce).tJC3
        = (SolTrack t loc p ce).tJC2 * (SolTrack t loc p ce).tJC := by
  by_cases hce : ce ≠ 0 <;>
    simp [SolTrack, hce, posEquatorial, convertEquatorialToHorizontal, setEquatorial,
      computeLongitude, updateTimeFields]

/-- C1: `computeJulianDay` returns exactly the Gregorian formula of the
specification (month ≤ 2 shifts to month+12 of the previous year,
`a = ⌊year/100⌋`, `b = 2 - a + ⌊a/4⌋`,
`JD = ⌊365.25(year+4716)⌋ + ⌊30.6001(month+1)⌋ + dayFraction + b - 1524.5`),
and `SolTrack` derives `dJD = JD - 2451545.0`, `tJC = dJD/36525`,
`tJC2 = tJC²`, `tJC3 = tJC2·tJC`. -/
theorem julianDay_matches_gregorian_formula :
    (∀ (year month day hour minute : ℤ) (second : ℝ),
       computeJulianDay year month day hour minute second
         = julianDaySpec year month day hour minute second)
    ∧ (∀ (t : Time) (loc : Location) (p : Position) (ce : ℤ),
       (SolTrack t loc p ce).julianDay
           = computeJulianDay t.year t.month t.day t.hour t.minute t.second
       ∧ (SolTrack t loc p ce).dJD = (SolTrack t loc p ce).julianDay - 2451545.0
       ∧ (SolTrack t loc p ce).tJC = (SolTrack t loc p ce).dJD / 36525.0
       ∧ (SolTrack t loc p ce).tJC2
           = (SolTrack t loc p ce).tJC * (SolTrack t loc p ce).tJC
       ∧ (SolTrack t loc p ce).tJC3
           = (SolTrack t loc p ce).tJC2 * (SolTrack t loc p ce).tJC) :=
  ⟨computeJulianDay_eq_spec, SolTrack_time_fields⟩

/-- C4: in `convertEquatorialToHorizontal` the `altitude` field is the raw
`eq2horiz` altitude minus the parallax term
`asin(EARTH_RADIUS/(distance·AU))·cos(rawAltitude)`, and `altitudeRefract`
adds the empirical refraction term evaluated at the parallax-corrected (not
raw) altitude — parallax first, refraction second. -/
theorem parallax_before_refraction (loc : Location) (p : Position) :
    ((convertEquatorialToHorizontal loc p).altitude
       = (eq2horiz loc.latitude loc.longitude p.rightAscension p.declination (agstOf p)).2
         - Real.arcsin (EARTH_RADIUS / (p.distance * AU))
           * Real.cos
             ((eq2horiz loc.latitude loc.longitude p.rightAscension p.declination
                (agstOf p)).2))
    ∧ ((convertEquatorialToHorizontal loc p).altitudeRefract
       = (convertEquatorialToHorizontal loc p).altitude
         + 2.9670597e-4 / Real.tan ((convertEquatorialToHorizontal loc p).altitude
             + 3.137559e-3 / ((convertEquatorialToHorizontal loc p).altitude
                 + 0.0891863))) :=
  ⟨rfl, rfl⟩

/-- C9: the parallax and refraction corrections of
`convertEquatorialToHorizontal` touch only the altitude: the stored
`azimuthRefract` is exactly the uncorrected `eq2horiz` azimuth, and the final
`SolTrack` azimuth output is that same azimuth, merely North-shifted and
converted to degrees. -/
theorem azimuth_free_of_parallax_refraction :
    (∀ (loc : Location) (p : Position),
       (convertEquatorialToHorizontal loc p).azimuthRefract
         = (eq2horiz loc.latitude loc.longitude p.rightAscension p.declination
             (agstOf p)).1)
    ∧ (∀ (t : Time) (loc : Location) (p : Position) (ce : ℤ),
       (SolTrack t loc p ce).azimuthRefract
         = fmodC ((eq2horiz loc.latitude loc.longitude
               (posEquatorial t p).rightAscension (posEquatorial t p).declination
               (agstOf (posEquatorial t p))).1 + PI + MPI) TWO_PI * R2D) := by
  constructor
  · intro loc p
    rfl
  · intro t loc p ce
    by_cases hce : ce ≠ 0 <;>
      simp [SolTrack, hce, useNorthEqualsZero, convertRadiansToDegrees,
        convertEquatorialToHorizontal]

/-- C7: `useNorthEqualsZero` replaces the azimuth by `azimuth + π` reduced
into `[0, 2π)`, performs the identical independent replacement on the hour
angle exactly when `computeEquatorial` is nonzero, and leaves the hour angle
untouched when it is zero.  (The angles entering this stage in the pipeline
are nonnegative, which the reduction to the positive floor-mod uses.) -/
theorem useNorthEqualsZero_spec (az ha : ℝ) (ce : ℤ) (haz : 0 ≤ az) (hha : 0 ≤ ha) :
    (useNorthEqualsZero az ha ce).1 = posmod (az + PI) TWO_PI
    ∧ (0 ≤ (useNorthEqualsZero az ha ce).1 ∧ (useNorthEqualsZero az ha ce).1 < TWO_PI)
    ∧ (ce ≠ 0 → (useNorthEqualsZero az ha ce).2 = posmod (ha + PI) TWO_PI)
    ∧ (ce = 0 → (useNorthEqualsZero az ha ce).2 = ha) := by
  have hpi : (0 : ℝ) < PI := Real.pi_pos
  have h1 : -MPI < az + PI := by
    have : (0 : ℝ) < MPI := by unfold MPI; positivity
    linarith
  have h2 : -MPI < ha + PI := by
    have : (0 : ℝ) < MPI := by unfold MPI; positivity
    linarith
  refine ⟨?_, ?_, ?_, ?_⟩
  · show fmodC (az + PI + MPI) TWO_PI = _
    exact fmodC_MPI _ h1
  · constructor
    · show 0 ≤ fmodC (az + PI + MPI) TWO_PI
      rw [fmodC_MPI _ h1]
      exact posmod_nonneg _ _ TWO_PI_pos
    · show fmodC (az + PI + MPI) TWO_PI < TWO_PI
      rw [fmodC_MPI _ h1]
      exact posmod_lt _ _ TWO_PI_pos
  · intro hce
    show (if ce ≠ 0 then fmodC (ha + PI + MPI) TWO_PI else ha) = _
    rw [if_pos hce]
    exact fmodC_MPI _ h2
  · intro hce
    show (if ce ≠ 0 then fmodC (ha + PI + MPI) TWO_PI else ha) = ha
    simp [hce]

/-- Witness for `useNorthEqualsZero_spec` at `az = ha = 0`, `ce = 1`. -/
theorem useNorthEqualsZero_spec_witness :
    (0 : ℝ) ≤ 0
    ∧ (useNorthEqualsZero 0 0 1).1 = posmod (0 + PI) TWO_PI
    ∧ (useNorthEqualsZero 0 0 1).2 = posmod (0 + PI) TWO_PI :=
  ⟨le_refl 0, (useNorthEqualsZero_spec 0 0 1 (le_refl 0) (le_refl 0)).1,
   (useNorthEqualsZero_spec 0 0 1 (le_refl 0) (le_refl 0)).2.2.1 (by norm_num)⟩

/-- C10: with `computeEquatorial = 0` the pipeline never writes
`hourAngleRefract` or `declinationRefract` (they keep the caller's initial
garbage), while every other field of the record is computed exactly as in a
`computeEquatorial = 1` run (independently of the initial record). -/
theorem equatorial_skip_frame (t : Time) (loc : Location) (p q : Position) :
    (SolTrack t loc p 0).hourAngleRefract = p.hourAngleRefract
    ∧ (SolTrack t loc p 0).declinationRefract = p.declinationRefract
    ∧ (SolTrack t loc p 0).julianDay = (SolTrack t loc q 1).julianDay
    ∧ (SolTrack t loc p 0).dJD = (SolTrack t loc q 1).dJD
    ∧ (SolTrack t loc p 0).tJC = (SolTrack t loc q 1).tJC
    ∧ (SolTrack t loc p 0).tJC2 = (SolTrack t loc q 1).tJC2
    ∧ (SolTrack t loc p 0).tJC3 = (SolTrack t loc q 1).tJC3
    ∧ (SolTrack t loc p 0).longitude = (SolTrack t loc q 1).longitude
    ∧ (SolTrack t loc p 0).distance = (SolTrack t loc q 1).distance
    ∧ (SolTrack t loc p 0).obliquity = (SolTrack t loc q 1).obliquity
    ∧ (SolTrack t loc p 0).nutationLon = (SolTrack t loc q 1).nutationLon
    ∧ (SolTrack t loc p 0).rightAscension = (SolTrack t loc q 1).rightAscension
    ∧ (SolTrack t loc p 0).declination = (SolTrack t loc q 1).declination
    ∧ (SolTrack t loc p 0).altitude = (SolTrack t loc q 1).altitude
    ∧ (SolTrack t loc p 0).altitudeRefract = (SolTrack t loc q 1).altitudeRefract
    ∧ (SolTrack t loc p 0).azimuthRefract = (SolTrack t loc q 1).azimuthRefract := by
  exact ⟨rfl, rfl, rfl, rfl, rfl, rfl, rfl, rfl, rfl, rfl, rfl, rfl, rfl, rfl, rfl, rfl⟩

/-- C8: the Julian-Day computation (and with it the pipeline) is total and
performs no validation: for arbitrary — also out-of-range — calendar fields
the result is exactly the same arithmetic formula (the only conditional being
the `month ≤ 2` adjustment), and e.g. month 13, day 32, minute 70 and a
negative second still produce the plain arithmetic value; the pipeline
produces a defined `Position` record for it. -/
theorem no_validation_garbage_in_garbage_out :
    (∀ (year month day hour minute : ℤ) (second : ℝ),
       computeJulianDay year month day hour minute second
         = julianDaySpec year month day hour minute second)
    ∧ computeJulianDay 2024 13 32 5 70 (-10) = 2460707.5 + 2219 / 8640
    ∧ (SolTrack ⟨2024, 13, 32, 5, 70, -10⟩ ⟨0, 0⟩ pos0 1).julianDay
        = 2460707.5 + 2219 / 8640 := by
  have h : computeJulianDay 2024 13 32 5 70 (-10) = 2460707.5 + 2219 / 8640 := by
    simp only [computeJulianDay]
    norm_num
  refine ⟨fun year month day hour minute second => rfl, h, ?_⟩
  have h2 := (SolTrack_time_fields ⟨2024, 13, 32, 5, 70, -10⟩ ⟨0, 0⟩ pos0 1).1
  rw [h2]
  exact h

/-! ## Helper lemmas for the range invariants -/

lemma MPI_pos : (0 : ℝ) < MPI := by
  unfold MPI
  positivity

lemma fmodC_MPI_shift_mem {x : ℝ} (hx : 0 ≤ x) :
    0 ≤ fmodC (x + PI + MPI) TWO_PI ∧ fmodC (x + PI + MPI) TWO_PI < TWO_PI := by
  have h : -MPI < x + PI := by
    have := MPI_pos
    have := Real.pi_pos
    unfold PI
    linarith
  rw [fmodC_MPI _ h]
  exact ⟨posmod_nonneg _ _ TWO_PI_pos, posmod_lt _ _ TWO_PI_pos⟩

lemma R2D_pos : (0 : ℝ) < R2D := by
  unfold R2D
  positivity

lemma mul_R2D_range {x : ℝ} (h0 : 0 ≤ x) (h2 : x < TWO_PI) :
    0 ≤ x * R2D ∧ x * R2D < 360 := by
  constructor
  · exact mul_nonneg h0 R2D_pos.le
  · have h : x * R2D < TWO_PI * R2D := by
      exact mul_lt_mul_of_pos_right h2 R2D_pos
    have heq : TWO_PI * R2D = 360 := by
      unfold TWO_PI R2D
      field_simp
      ring
    linarith

lemma SolTrack_azimuthRefract_eq (t : Time) (loc : Location) (p : Position) (ce : ℤ) :
    (SolTrack t loc p ce).azimuthRefract
      = fmodC ((convertEquatorialToHorizontal loc (posEquatorial t p)).azimuthRefract
          + PI + MPI) TWO_PI * R2D := by
  by_cases hce : ce ≠ 0 <;>
    simp [SolTrack, hce, useNorthEqualsZero, convertRadiansToDegrees]

lemma SolTrack_hourAngleRefract_eq (t : Time) (loc : Location) (p : Position)
    (ce : ℤ) (hce : ce ≠ 0) :
    (SolTrack t loc p ce).hourAngleRefract
      = fmodC ((convertHorizontalToEquatorial loc.latitude
            (convertEquatorialToHorizontal loc (posEquatorial t p)).azimuthRefract
            (convertEquatorialToHorizontal loc (posEquatorial t p)).altitudeRefract).1
          + PI + MPI) TWO_PI * R2D := by
  simp [SolTrack, hce, useNorthEqualsZero, convertRadiansToDegrees]

lemma cETH_azimuthRefract_mem (loc : Location) (p : Position) :
    0 ≤ (convertEquatorialToHorizontal loc p).azimuthRefract
    ∧ (convertEquatorialToHorizontal loc p).azimuthRefract < TWO_PI :=
  fmodC_atan2_mem _ _

/-- C3: every normalisation site produces an angle in `[0, 2π)`: the azimuth
leaving `eq2horiz`, the hour angle leaving `convertHorizontalToEquatorial`,
and both angles leaving `useNorthEqualsZero` (whose pipeline inputs are
nonnegative); consequently the SolTrack outputs `azimuthRefract` and, when
equatorial output is requested, `hourAngleRefract` lie in `[0°, 360°)` after
the final degree conversion. -/
theorem azimuth_hour_angle_always_in_range :
    (∀ lat lon ra dec agst : ℝ,
       0 ≤ (eq2horiz lat lon ra dec agst).1 ∧ (eq2horiz lat lon ra dec agst).1 < TWO_PI)
    ∧ (∀ lat az alt : ℝ,
       0 ≤ (convertHorizontalToEquatorial lat az alt).1
       ∧ (convertHorizontalToEquatorial lat az alt).1 < TWO_PI)
    ∧ (∀ (az ha : ℝ) (ce : ℤ), 0 ≤ az →
       0 ≤ (useNorthEqualsZero az ha ce).1 ∧ (useNorthEqualsZero az ha ce).1 < TWO_PI)
    ∧ (∀ (az ha : ℝ) (ce : ℤ), 0 ≤ ha → ce ≠ 0 →
       0 ≤ (useNorthEqualsZero az ha ce).2 ∧ (useNorthEqualsZero az ha ce).2 < TWO_PI)
    ∧ (∀ (t : Time) (loc : Location) (p : Position) (ce : ℤ),
       (0 ≤ (SolTrack t loc p ce).azimuthRefract
         ∧ (SolTrack t loc p ce).azimuthRefract < 360)
       ∧ (ce ≠ 0 →
          0 ≤ (SolTrack t loc p ce).hourAngleRefract
          ∧ (SolTrack t loc p ce).hourAngleRefract < 360)) := by
  refine ⟨?_, ?_, ?_, ?_, ?_⟩
  · intro lat lon ra dec agst
    exact fmodC_atan2_mem _ _
  · intro lat az alt
    exact fmodC_atan2_mem _ _
  · intro az ha ce haz
    exact fmodC_MPI_shift_mem haz
  · intro az ha ce hha hce
    have h : (useNorthEqualsZero az ha ce).2 = fmodC (ha + PI + MPI) TWO_PI := by
      simp [useNorthEqualsZero, hce]
    rw [h]
    exact fmodC_MPI_shift_mem hha
  · intro t loc p ce
    constructor
    · rw [SolTrack_azimuthRefract_eq]
      have h5 := cETH_azimuthRefract_mem loc (posEquatorial t p)
      exact mul_R2D_range (fmodC_MPI_shift_mem h5.1).1 (fmodC_MPI_shift_mem h5.1).2
    · intro hce
      rw [SolTrack_hourAngleRefract_eq t loc p ce hce]
      have h6 : 0 ≤ (convertHorizontalToEquatorial loc.latitude
            (convertEquatorialToHorizontal loc (posEquatorial t p)).azimuthRefract
            (convertEquatorialToHorizontal loc (posEquatorial t p)).altitudeRefract).1 :=
        (fmodC_atan2_mem _ _).1
      exact mul_R2D_range (fmodC_MPI_shift_mem h6).1 (fmodC_MPI_shift_mem h6).2

/-- Witness for `azimuth_hour_angle_always_in_range` at a concrete input. -/
theorem azimuth_hour_angle_always_in_range_witness :
    (0 : ℝ) ≤ 0 ∧ (1 : ℤ) ≠ 0
    ∧ (0 ≤ (useNorthEqualsZero 0 0 1).2 ∧ (useNorthEqualsZero 0 0 1).2 < TWO_PI)
    ∧ (0 ≤ (SolTrack ⟨2000, 1, 1, 12, 0, 0⟩ ⟨0, 0⟩ pos0 1).hourAngleRefract
        ∧ (SolTrack ⟨2000, 1, 1, 12, 0, 0⟩ ⟨0, 0⟩ pos0 1).hourAngleRefract < 360) :=
  ⟨le_refl 0, by norm_num,
   azimuth_hour_angle_always_in_range.2.2.2.1 0 0 1 (le_refl 0) (by norm_num),
   (azimuth_hour_angle_always_in_range.2.2.2.2 ⟨2000, 1, 1, 12, 0, 0⟩ ⟨0, 0⟩ pos0 1).2
     (by norm_num)⟩

/-! ## The distance field -/

lemma SolTrack_distance_eq (t : Time) (loc : Location) (p : Position) (ce : ℤ) :
    (SolTrack t loc p ce).distance
      = sun_dist (timeTJC t) (timeTJC t * timeTJC t) := by
  by_cases hce : ce ≠ 0 <;>
    simp [SolTrack, hce, posEquatorial, convertEquatorialToHorizontal, setEquatorial,
      computeLongitude, updateTimeFields, timeTJC]

/-- C6 (counterexample): the claim "`distance` lies within `[0.983, 1.017]` AU
for any date" fails: at the (astronomically meaningless but accepted) date
1000000-01-01 the eccentricity polynomial evaluates below `-13`, so the
computed distance cannot lie in `[0.983, 1.017]`. -/
theorem distance_out_of_bounds_remote_date :
    ¬(0.983 ≤ (SolTrack ⟨1000000, 1, 1, 0, 0, 0⟩ ⟨0, 0⟩ pos0 0).distance
      ∧ (SolTrack ⟨1000000, 1, 1, 0, 0, 0⟩ ⟨0, 0⟩ pos0 0).distance ≤ 1.017) := by
  rw [SolTrack_distance_eq]
  have hT : timeTJC ⟨1000000, 1, 1, 0, 0, 0⟩ = 364512014.5 / 36525 := by
    unfold timeTJC
    norm_num [computeJulianDay]
  rw [hT]
  intro hcontra
  obtain ⟨h1, h2⟩ := hcontra
  set T : ℝ := 364512014.5 / 36525 with hTdef
  set e := sun_e T (T * T) with he
  set c := Real.cos (sun_nu T (T * T)) with hc
  have he_ub : e ≤ -13 := by
    rw [he, hTdef]
    unfold sun_e
    norm_num
  have he_lb : -13.05 ≤ e := by
    rw [he, hTdef]
    unfold sun_e
    norm_num
  have hc1 : c ≤ 1 := Real.cos_le_one _
  have hc2 : -1 ≤ c := Real.neg_one_le_cos _
  have hdist : sun_dist T (T * T) = 1.000001018 * (1 - e * e) / (1 + e * c) := rfl
  rw [hdist] at h1 h2
  by_cases hd : (1 + e * c) = 0
  · rw [hd, div_zero] at h1
    linarith
  · have hmul : 1.000001018 * (1 - e * e) / (1 + e * c) * (1 + e * c)
        = 1.000001018 * (1 - e * e) := div_mul_cancel₀ _ hd
    set dist := 1.000001018 * (1 - e * e) / (1 + e * c)
    have hec_lo : e ≤ e * c := by nlinarith
    have hden_lo : -12.05 ≤ 1 + e * c := by linarith
    have hdist_pos : 0 < dist := by linarith
    have hstep : 0 ≤ dist * (1 + e * c + 12.05) := by nlinarith
    have hprod_lo : -12.26 ≤ dist * (1 + e * c) := by nlinarith
    have hN : 1.000001018 * (1 - e * e) ≤ -168 := by nlinarith
    linarith [hmul ▸ hprod_lo]

/-- C6 (amended): for every time argument within five Julian centuries of
J2000.0 (`|tJC| ≤ 5` covers roughly the years 1500–2500, the Gregorian
domain the code documents and more), the computed Earth–Sun distance lies
within `[0.983, 1.017]` AU. -/
theorem distance_in_bounds_near_epoch (t : Time) (loc : Location) (p : Position)
    (ce : ℤ) (hT : |timeTJC t| ≤ 5) :
    0.983 ≤ (SolTrack t loc p ce).distance
    ∧ (SolTrack t loc p ce).distance ≤ 1.017 := by
  rw [SolTrack_distance_eq]
  rw [abs_le] at hT
  set T := timeTJC t with hTdef
  set e := sun_e T (T * T) with he
  set c := Real.cos (sun_nu T (T * T)) with hc
  have hsq : T * T ≤ 25 := by nlinarith [hT.1, hT.2]
  have hsq0 : 0 ≤ T * T := mul_self_nonneg T
  have he_lb : 0.0164952 ≤ e := by
    rw [he]
    unfold sun_e
    nlinarith [hT.1, hT.2]
  have he_ub : e ≤ 0.0169189 := by
    rw [he]
    unfold sun_e
    nlinarith [hT.1, hT.2]
  have hc1 : c ≤ 1 := Real.cos_le_one _
  have hc2 : -1 ≤ c := Real.neg_one_le_cos _
  have hdist : sun_dist T (T * T) = 1.000001018 * (1 - e * e) / (1 + e * c) := rfl
  rw [hdist]
  have hec_lo : -e ≤ e * c := by nlinarith
  have hec_hi : e * c ≤ e := by nlinarith
  have hden_lo : 1 - 0.0169189 ≤ 1 + e * c := by linarith
  have hden_hi : 1 + e * c ≤ 1 + 0.0169189 := by linarith
  have hden_pos : 0 < 1 + e * c := by linarith
  have hN_lo : 0.9997137 ≤ 1.000001018 * (1 - e * e) := by nlinarith
  have hN_hi : 1.000001018 * (1 - e * e) ≤ 0.999729 := by nlinarith
  constructor
  · rw [le_div_iff₀ hden_pos]
    nlinarith
  · rw [div_le_iff₀ hden_pos]
    nlinarith

/-- Witness for `distance_in_bounds_near_epoch` at J2000.0 itself. -/
theorem distance_in_bounds_near_epoch_witness :
    |timeTJC ⟨2000, 1, 1, 12, 0, 0⟩| ≤ 5
    ∧ 0.983 ≤ (SolTrack ⟨2000, 1, 1, 12, 0, 0⟩ ⟨0, 0⟩ pos0 1).distance
    ∧ (SolTrack ⟨2000, 1, 1, 12, 0, 0⟩ ⟨0, 0⟩ pos0 1).distance ≤ 1.017 := by
  have hT : |timeTJC ⟨2000, 1, 1, 12, 0, 0⟩| ≤ 5 := by
    unfold timeTJC
    norm_num [computeJulianDay]
  exact ⟨hT, (distance_in_bounds_near_epoch _ ⟨0, 0⟩ pos0 1 hT).1,
    (distance_in_bounds_near_epoch _ ⟨0, 0⟩ pos0 1 hT).2⟩

/-! ## Helper lemmas for the horizontal/equatorial round trip -/

lemma sin_posmod_two_pi (x : ℝ) : Real.sin (posmod x TWO_PI) = Real.sin x := by
  unfold posmod TWO_PI
  rw [mul_comm (2 * Real.pi) _]
  exact Real.sin_sub_int_mul_two_pi x _

lemma cos_posmod_two_pi (x : ℝ) : Real.cos (posmod x TWO_PI) = Real.cos x := by
  unfold posmod TWO_PI
  rw [mul_comm (2 * Real.pi) _]
  exact Real.cos_sub_int_mul_two_pi x _

/-- The sine and cosine of `atan2 y x` when `√(x² + y²) = r > 0`. -/
lemma atan2_sin_cos_of_sqrt (x y r : ℝ) (hr : Real.sqrt (x ^ 2 + y ^ 2) = r)
    (hrpos : 0 < r) :
    Real.sin (atan2 y x) = y / r ∧ Real.cos (atan2 y x) = x / r := by
  have habs : Complex.abs ⟨x, y⟩ = r := by
    rw [Complex.abs_apply, Complex.normSq_mk, ← hr]
    ring_nf
  have hz : (⟨x, y⟩ : ℂ) ≠ 0 := by
    intro h
    rw [h] at habs
    simp at habs
    exact hrpos.ne habs
  constructor
  · rw [atan2, Complex.sin_arg, habs]
  · rw [atan2, Complex.cos_arg hz, habs]

/-- `atan2` is invariant under scaling both arguments by a positive factor. -/
lemma atan2_scale (r y x : ℝ) (hr : 0 < r) : atan2 (r * y) (r * x) = atan2 y x := by
  unfold atan2
  have h : (⟨r * x, r * y⟩ : ℂ) = (r : ℂ) * ⟨x, y⟩ := by
    apply Complex.ext <;>
      simp [Complex.mul_re, Complex.mul_im]
  rw [h, Complex.arg_real_mul _ hr]

/-- `atan2 (sin θ) (cos θ)` reduces `θ` modulo `2π`. -/
lemma posmod_atan2_sin_cos (hh : ℝ) :
    posmod (atan2 (Real.sin hh) (Real.cos hh)) TWO_PI = posmod hh TWO_PI := by
  have hp : (0 : ℝ) < 2 * Real.pi := by positivity
  set k := toIocDiv hp (-Real.pi) hh with hk
  have hθdef : toIocMod hp (-Real.pi) hh = hh - k • (2 * Real.pi) := rfl
  have hθmem : toIocMod hp (-Real.pi) hh ∈ Set.Ioc (-Real.pi) (-Real.pi + 2 * Real.pi) :=
    toIocMod_mem_Ioc hp (-Real.pi) hh
  set θ := toIocMod hp (-Real.pi) hh with hθ
  have hmem : θ ∈ Set.Ioc (-Real.pi) Real.pi := by
    have h2 : -Real.pi + 2 * Real.pi = Real.pi := by ring
    rw [h2] at hθmem
    exact hθmem
  have hsin : Real.sin θ = Real.sin hh := by
    rw [hθdef, zsmul_eq_mul]
    exact Real.sin_sub_int_mul_two_pi hh k
  have hcos : Real.cos θ = Real.cos hh := by
    rw [hθdef, zsmul_eq_mul]
    exact Real.cos_sub_int_mul_two_pi hh k
  have harg : atan2 (Real.sin hh) (Real.cos hh) = θ := by
    unfold atan2
    rw [← hsin, ← hcos]
    have hmk : (⟨Real.cos θ, Real.sin θ⟩ : ℂ)
        = (Real.cos θ : ℂ) + (Real.sin θ : ℂ) * Complex.I :=
      Complex.mk_eq_add_mul_I _ _
    rw [hmk, Complex.ofReal_cos, Complex.ofReal_sin]
    exact Complex.arg_cos_add_sin_mul_I hmem
  rw [harg, hθdef, zsmul_eq_mul]
  have h3 : hh - (k : ℝ) * (2 * Real.pi) = hh + ((-k : ℤ) : ℝ) * TWO_PI := by
    unfold TWO_PI
    push_cast
    ring
  rw [h3, posmod_add_int_mul _ _ _ TWO_PI_pos.ne']

set_option maxHeartbeats 2000000 in
/-- C2 (amended): for latitudes in `(-π/2, π/2)`, declinations in the open
interval `(-π/2, π/2)`, and any observer longitude, sidereal time and right
ascension such that the sun is not exactly at the zenith or nadir, feeding the
`eq2horiz` azimuth/altitude outputs unchanged (no parallax, no refraction)
into `convertHorizontalToEquatorial` recovers the local hour angle
`agst + longitude - rightAscension` reduced into `[0, 2π)` — hence the
original right ascension — and recovers the declination exactly. -/
theorem horizontal_equatorial_roundtrip (lat lon ra dec agst : ℝ)
    (hlat1 : -(Real.pi / 2) < lat) (hlat2 : lat < Real.pi / 2)
    (hdec1 : -(Real.pi / 2) < dec) (hdec2 : dec < Real.pi / 2)
    (hnz : (Real.sin lat * Real.sin dec
        + Real.cos lat * Real.cos dec * Real.cos (agst + lon - ra)) ^ 2 ≠ 1) :
    (convertHorizontalToEquatorial lat (eq2horiz lat lon ra dec agst).1
        (eq2horiz lat lon ra dec agst).2).1 = posmod (agst + lon - ra) TWO_PI
    ∧ (convertHorizontalToEquatorial lat (eq2horiz lat lon ra dec agst).1
        (eq2horiz lat lon ra dec agst).2).2 = dec := by
  have hcl : 0 < Real.cos lat := Real.cos_pos_of_mem_Ioo ⟨hlat1, hlat2⟩
  have hcd : 0 < Real.cos dec := Real.cos_pos_of_mem_Ioo ⟨hdec1, hdec2⟩
  have p1 := Real.sin_sq_add_cos_sq lat
  have p2 := Real.sin_sq_add_cos_sq dec
  have p3 := Real.sin_sq_add_cos_sq (agst + lon - ra)
  set sl := Real.sin lat with hsl
  set cl := Real.cos lat with hclv
  set sd := Real.sin dec with hsd
  set cd := Real.cos dec with hcdv
  set sh := Real.sin (agst + lon - ra) with hsh
  set ch := Real.cos (agst + lon - ra) with hch
  have hsqlat : Real.sqrt (1 - sl * sl) = cl := by
    have h : 1 - sl * sl = cl * cl := by nlinarith
    rw [h, Real.sqrt_mul_self hcl.le]
  have hsqdec : Real.sqrt (1 - sd * sd) = cd := by
    have h : 1 - sd * sd = cd * cd := by nlinarith
    rw [h, Real.sqrt_mul_self hcd.le]
  set s := sl * sd + cl * cd * ch with hs
  have hids : 1 - s ^ 2 = (sh * cd) ^ 2 + (sl * ch * cd - cl * sd) ^ 2 := by
    rw [hs]
    linear_combination (-(sd ^ 2 + cd ^ 2 * ch ^ 2)) * p1 - p2 - cd ^ 2 * p3
  have hs2lt : s ^ 2 < 1 :=
    lt_of_le_of_ne
      (by nlinarith [sq_nonneg (sh * cd), sq_nonneg (sl * ch * cd - cl * sd)]) hnz
  have h1spos : 0 < 1 - s * s := by nlinarith
  have hsbound : -1 ≤ s ∧ s ≤ 1 := by
    constructor <;> nlinarith
  set ca := Real.sqrt (1 - s * s) with hca
  have hcapos : 0 < ca := Real.sqrt_pos.mpr h1spos
  have hca2 : ca * ca = 1 - s * s := Real.mul_self_sqrt h1spos.le
  have hsarc : Real.sin (Real.arcsin s) = s :=
    Real.sin_arcsin hsbound.1 hsbound.2
  have e1 : (eq2horiz lat lon ra dec agst).1
      = fmodC (atan2 sh (ch * sl - sd / cd * cl) + MPI) TWO_PI := by
    show fmodC (atan2 sh
        (ch * sl - sd / Real.sqrt (1 - sd * sd) * Real.sqrt (1 - sl * sl)) + MPI)
        TWO_PI = _
    rw [hsqdec, hsqlat]
  have e2 : (eq2horiz lat lon ra dec agst).2 = Real.arcsin s := by
    show Real.arcsin (sl * sd + Real.sqrt (1 - sl * sl)
        * Real.sqrt (1 - sd * sd) * ch) = _
    rw [hsqlat, hsqdec, ← hs]
  set A0 := atan2 sh (ch * sl - sd / cd * cl) with hA0
  have hx : ch * sl - sd / cd * cl = (sl * ch * cd - cl * sd) / cd := by
    field_simp
    ring
  have hsqrt_xy : Real.sqrt (((sl * ch * cd - cl * sd) / cd) ^ 2 + sh ^ 2) = ca / cd := by
    have hca2' : ca ^ 2 = 1 - s ^ 2 := by nlinarith
    have h : ((sl * ch * cd - cl * sd) / cd) ^ 2 + sh ^ 2 = (ca / cd) ^ 2 := by
      rw [div_pow, div_pow, hca2', hids]
      field_simp
      ring
    rw [h, Real.sqrt_sq (div_nonneg hcapos.le hcd.le)]
  have hA0sincos := atan2_sin_cos_of_sqrt ((sl * ch * cd - cl * sd) / cd) sh (ca / cd)
    hsqrt_xy (div_pos hcapos hcd)
  have hA0' : A0 = atan2 sh ((sl * ch * cd - cl * sd) / cd) := by rw [hA0, hx]
  have hsinA0 : Real.sin A0 = sh * cd / ca := by
    rw [hA0', hA0sincos.1, div_div_eq_mul_div]
  have hcosA0 : Real.cos A0 = (sl * ch * cd - cl * sd) / ca := by
    rw [hA0', hA0sincos.2]
    field_simp
  have hAZ : fmodC (A0 + MPI) TWO_PI = posmod A0 TWO_PI := by
    apply fmodC_MPI
    rw [hA0]
    exact neg_MPI_lt_atan2 _ _
  have hsinAZ : Real.sin (fmodC (A0 + MPI) TWO_PI) = sh * cd / ca := by
    rw [hAZ, sin_posmod_two_pi, hsinA0]
  have hcosAZ : Real.cos (fmodC (A0 + MPI) TWO_PI) = (sl * ch * cd - cl * sd) / ca := by
    rw [hAZ, cos_posmod_two_pi, hcosA0]
  rw [e1, e2]
  constructor
  · have b1 : (convertHorizontalToEquatorial lat (fmodC (A0 + MPI) TWO_PI)
        (Real.arcsin s)).1
        = fmodC (atan2 (Real.sin (fmodC (A0 + MPI) TWO_PI))
            (Real.cos (fmodC (A0 + MPI) TWO_PI) * sl
              + Real.sin (Real.arcsin s)
                / Real.sqrt (1 - Real.sin (Real.arcsin s) * Real.sin (Real.arcsin s))
                * Real.sqrt (1 - sl * sl)) + MPI) TWO_PI := rfl
    rw [b1, hsinAZ, hcosAZ, hsarc, ← hca, hsqlat]
    have hXarg : (sl * ch * cd - cl * sd) / ca * sl + s / ca * cl = cd / ca * ch := by
      rw [hs]
      field_simp
      linear_combination ch * cd * p1
    have hYarg : sh * cd / ca = cd / ca * sh := by ring
    rw [hXarg, hYarg, atan2_scale _ _ _ (div_pos hcd hcapos)]
    rw [fmodC_MPI _ (neg_MPI_lt_atan2 _ _)]
    exact posmod_atan2_sin_cos (agst + lon - ra)
  · have b2 : (convertHorizontalToEquatorial lat (fmodC (A0 + MPI) TWO_PI)
        (Real.arcsin s)).2
        = Real.arcsin (sl * Real.sin (Real.arcsin s)
            - Real.sqrt (1 - sl * sl)
              * Real.sqrt (1 - Real.sin (Real.arcsin s) * Real.sin (Real.arcsin s))
              * Real.cos (fmodC (A0 + MPI) TWO_PI)) := rfl
    rw [b2, hsarc, ← hca, hsqlat, hcosAZ]
    have hargdec : sl * s - cl * ca * ((sl * ch * cd - cl * sd) / ca) = sd := by
      have hcancel : cl * ca * ((sl * ch * cd - cl * sd) / ca)
          = cl * (sl * ch * cd - cl * sd) := by
        field_simp
        ring
      rw [hcancel, hs]
      linear_combination sd * p1
    rw [hargdec, hsd]
    exact Real.arcsin_sin hdec1.le hdec2.le

lemma posmod_pi : posmod Real.pi TWO_PI = Real.pi := by
  unfold posmod TWO_PI
  have h : Real.pi / (2 * Real.pi) = 1 / 2 := by
    rw [div_eq_div_iff (by positivity) (by norm_num)]
    ring
  rw [h]
  norm_num

lemma posmod_zero : posmod 0 TWO_PI = 0 := by
  unfold posmod
  rw [zero_div]
  norm_num

lemma atan2_zero_zero : atan2 0 0 = 0 := by
  unfold atan2
  have h : (⟨0, 0⟩ : ℂ) = 0 := rfl
  rw [h]
  exact Complex.arg_zero

lemma atan2_zero_neg {x : ℝ} (hx : x < 0) : atan2 0 x = Real.pi := by
  unfold atan2
  have h : (⟨x, 0⟩ : ℂ) = (x : ℂ) := rfl
  rw [h]
  exact Complex.arg_ofReal_of_neg hx

/-- C2 (counterexample): at the endpoint `declination = π/2` of the claimed
closed interval the round trip loses the hour angle: with latitude `π/4`,
longitude `0`, right ascension `0`, sidereal time `π` (local hour angle `π`),
the recovered hour angle is `0`, not `π`.  (At `dec = ±π/2` the code divides
by `cosdec = 0`, and the hour-angle information is genuinely destroyed.) -/
theorem horizontal_equatorial_roundtrip_fails_at_pole :
    (-(Real.pi / 2) < Real.pi / 4 ∧ Real.pi / 4 < Real.pi / 2)
    ∧ (-(Real.pi / 2) ≤ Real.pi / 2 ∧ (Real.pi / 2 : ℝ) ≤ Real.pi / 2)
    ∧ (convertHorizontalToEquatorial (Real.pi / 4)
         (eq2horiz (Real.pi / 4) 0 0 (Real.pi / 2) Real.pi).1
         (eq2horiz (Real.pi / 4) 0 0 (Real.pi / 2) Real.pi).2).1
       ≠ posmod (Real.pi + 0 - 0) TWO_PI := by
  have hpi := Real.pi_pos
  have h0 : Real.pi + 0 - 0 = Real.pi := by ring
  have hs4 : Real.sin (Real.pi / 4) > 0 :=
    Real.sin_pos_of_pos_of_lt_pi (by linarith) (by linarith)
  have hsq11 : (1 : ℝ) - 1 * 1 = 0 := by norm_num
  have hf1 : (eq2horiz (Real.pi / 4) 0 0 (Real.pi / 2) Real.pi).1 = Real.pi := by
    show fmodC (atan2 (Real.sin (Real.pi + 0 - 0))
        (Real.cos (Real.pi + 0 - 0) * Real.sin (Real.pi / 4)
          - Real.sin (Real.pi / 2)
              / Real.sqrt (1 - Real.sin (Real.pi / 2) * Real.sin (Real.pi / 2))
            * Real.sqrt (1 - Real.sin (Real.pi / 4) * Real.sin (Real.pi / 4)))
        + MPI) TWO_PI = Real.pi
    rw [h0, Real.sin_pi, Real.cos_pi, Real.sin_pi_div_two, hsq11, Real.sqrt_zero,
      div_zero, zero_mul, sub_zero]
    have hneg : (-1 : ℝ) * Real.sin (Real.pi / 4) < 0 := by linarith
    rw [atan2_zero_neg hneg, fmodC_MPI _ (by linarith [MPI_pos]), posmod_pi]
  have hf2 : (eq2horiz (Real.pi / 4) 0 0 (Real.pi / 2) Real.pi).2 = Real.pi / 4 := by
    show Real.arcsin (Real.sin (Real.pi / 4) * Real.sin (Real.pi / 2)
        + Real.sqrt (1 - Real.sin (Real.pi / 4) * Real.sin (Real.pi / 4))
          * Real.sqrt (1 - Real.sin (Real.pi / 2) * Real.sin (Real.pi / 2))
          * Real.cos (Real.pi + 0 - 0)) = Real.pi / 4
    rw [Real.sin_pi_div_two, hsq11, Real.sqrt_zero, mul_zero, zero_mul, add_zero,
      mul_one]
    exact Real.arcsin_sin (by linarith) (by linarith)
  have hb1 : (convertHorizontalToEquatorial (Real.pi / 4) Real.pi (Real.pi / 4)).1
      = 0 := by
    show fmodC (atan2 (Real.sin Real.pi)
        (Real.cos Real.pi * Real.sin (Real.pi / 4)
          + Real.sin (Real.pi / 4)
              / Real.sqrt (1 - Real.sin (Real.pi / 4) * Real.sin (Real.pi / 4))
            * Real.sqrt (1 - Real.sin (Real.pi / 4) * Real.sin (Real.pi / 4)))
        + MPI) TWO_PI = 0
    have hc : Real.sqrt (1 - Real.sin (Real.pi / 4) * Real.sin (Real.pi / 4)) ≠ 0 := by
      rw [Real.sin_pi_div_four]
      have h2 : Real.sqrt 2 * Real.sqrt 2 = 2 := Real.mul_self_sqrt (by norm_num)
      have h12 : (1 : ℝ) - Real.sqrt 2 / 2 * (Real.sqrt 2 / 2) = 1 / 2 := by
        field_simp
        linarith [h2]
      rw [h12]
      positivity
    rw [Real.sin_pi, Real.cos_pi, div_mul_cancel₀ _ hc,
      show (-1 : ℝ) * Real.sin (Real.pi / 4) + Real.sin (Real.pi / 4) = 0 by ring,
      atan2_zero_zero, fmodC_MPI _ (by linarith [MPI_pos]), posmod_zero]
  refine ⟨⟨by linarith, by linarith⟩, ⟨by linarith, le_refl _⟩, ?_⟩
  rw [hf1, hf2, hb1, h0, posmod_pi]
  exact Ne.symm Real.pi_ne_zero

/-- Witness for `horizontal_equatorial_roundtrip` at the equator with the sun
on the horizon (hour angle `π/2`). -/
theorem horizontal_equatorial_roundtrip_witness :
    (-(Real.pi / 2) < 0 ∧ (0 : ℝ) < Real.pi / 2
      ∧ (Real.sin 0 * Real.sin 0
          + Real.cos 0 * Real.cos 0 * Real.cos (Real.pi / 2 + 0 - 0)) ^ 2 ≠ 1)
    ∧ (convertHorizontalToEquatorial 0 (eq2horiz 0 0 0 0 (Real.pi / 2)).1
         (eq2horiz 0 0 0 0 (Real.pi / 2)).2).1 = posmod (Real.pi / 2 + 0 - 0) TWO_PI
    ∧ (convertHorizontalToEquatorial 0 (eq2horiz 0 0 0 0 (Real.pi / 2)).1
         (eq2horiz 0 0 0 0 (Real.pi / 2)).2).2 = 0 := by
  have hpi := Real.pi_pos
  have hnz : (Real.sin 0 * Real.sin 0
      + Real.cos 0 * Real.cos 0 * Real.cos (Real.pi / 2 + 0 - 0)) ^ 2 ≠ 1 := by
    rw [show Real.pi / 2 + 0 - 0 = Real.pi / 2 by ring]
    rw [Real.sin_zero, Real.cos_zero, Real.cos_pi_div_two]
    norm_num
  have h := horizontal_equatorial_roundtrip 0 0 0 0 (Real.pi / 2)
    (by linarith) (by linarith) (by linarith) (by linarith) hnz
  exact ⟨⟨by linarith, by linarith, hnz⟩, h.1, h.2⟩

/-! ## The apparent-longitude reduction -/

lemma SolTrack_longitude_eq (t : Time) (loc : Location) (p : Position) (ce : ℤ) :
    (SolTrack t loc p ce).longitude
      = fmodC (sun_odot (timeTJC t) (timeTJC t * timeTJC t)
          + sun_aber (timeTJC t) (timeTJC t * timeTJC t)
          + sun_dpsi (timeTJC t) (timeTJC t * timeTJC t)
              (timeTJC t * timeTJC t * timeTJC t) + MPI) TWO_PI := by
  by_cases hce : ce ≠ 0 <;>
    simp [SolTrack, hce, posEquatorial, convertEquatorialToHorizontal, setEquatorial,
      computeLongitude, updateTimeFields, timeTJC]

/-- A product with a factor in `[-1, 1]` is bounded by the bound on the other
factor. -/
lemma mul_sin_bound {A a s : ℝ} (h1 : -a ≤ A) (h2 : A ≤ a) (hs1 : -1 ≤ s)
    (hs2 : s ≤ 1) : -a ≤ A * s ∧ A * s ≤ a := by
  constructor <;> nlinarith

/-- The nutation-in-longitude series is uniformly tiny. -/
lemma sun_dpsi_bound (T T2 T3 : ℝ) :
    -9.2e-5 ≤ sun_dpsi T T2 T3 ∧ sun_dpsi T T2 T3 ≤ 9.2e-5 := by
  unfold sun_dpsi
  have h1 := Real.neg_one_le_sin (sun_omg T T2 T3)
  have h2 := Real.sin_le_one (sun_omg T T2 T3)
  have h3 := Real.neg_one_le_sin (2 * sun_l0 T T2)
  have h4 := Real.sin_le_one (2 * sun_l0 T T2)
  have h5 := Real.neg_one_le_sin (2 * sun_lm T)
  have h6 := Real.sin_le_one (2 * sun_lm T)
  have h7 := Real.neg_one_le_sin (2 * sun_omg T T2 T3)
  have h8 := Real.sin_le_one (2 * sun_omg T T2 T3)
  constructor <;> linarith

set_option maxHeartbeats 1600000 in
/-- C5 (amended): for every time argument within five Julian centuries of
J2000.0 (`|tJC| ≤ 50` actually allows fifty centuries, ±5000 years), the
stored longitude is `(trueLongitude + aberration + nutation)` reduced by the
standard positive floor-mod into `[0, 2π)`: there the `fmod(x + MPI, TWO_PI)`
trick agrees with the positive floor-mod. -/
theorem longitude_reduced_positive_floor_mod (t : Time) (loc : Location)
    (p : Position) (ce : ℤ) (hT : |timeTJC t| ≤ 50) :
    (SolTrack t loc p ce).longitude
      = posmod (sun_odot (timeTJC t) (timeTJC t * timeTJC t)
          + sun_aber (timeTJC t) (timeTJC t * timeTJC t)
          + sun_dpsi (timeTJC t) (timeTJC t * timeTJC t)
              (timeTJC t * timeTJC t * timeTJC t)) TWO_PI
    ∧ 0 ≤ (SolTrack t loc p ce).longitude
    ∧ (SolTrack t loc p ce).longitude < TWO_PI := by
  rw [SolTrack_longitude_eq]
  rw [abs_le] at hT
  set T := timeTJC t with hTdef
  have hT2 : T * T ≤ 2500 := by nlinarith [hT.1, hT.2]
  have hT2' : 0 ≤ T * T := mul_self_nonneg T
  have hl0 : -31422 ≤ sun_l0 T (T * T) ∧ sun_l0 T (T * T) ≤ 31422 := by
    unfold sun_l0
    constructor <;> nlinarith [hT.1, hT.2]
  have hcA : -0.0383 ≤ 3.34161088e-2 - 8.40725e-5 * T - 2.443e-7 * (T * T)
      ∧ 3.34161088e-2 - 8.40725e-5 * T - 2.443e-7 * (T * T) ≤ 0.0383 := by
    constructor <;> nlinarith [hT.1, hT.2]
  have hcB : -4.4e-4 ≤ 3.489437e-4 - 1.76278e-6 * T
      ∧ 3.489437e-4 - 1.76278e-6 * T ≤ 4.4e-4 := by
    constructor <;> nlinarith [hT.1, hT.2]
  have hc : -0.039 ≤ sun_c T (T * T) ∧ sun_c T (T * T) ≤ 0.039 := by
    unfold sun_c
    have hb1 := mul_sin_bound hcA.1 hcA.2 (Real.neg_one_le_sin (sun_m T (T * T)))
      (Real.sin_le_one (sun_m T (T * T)))
    have hb2 := mul_sin_bound hcB.1 hcB.2 (Real.neg_one_le_sin (2 * sun_m T (T * T)))
      (Real.sin_le_one (2 * sun_m T (T * T)))
    have hb3 := mul_sin_bound (by norm_num : -(5.044e-6 : ℝ) ≤ 5.044e-6)
      (le_refl (5.044e-6 : ℝ)) (Real.neg_one_le_sin (3 * sun_m T (T * T)))
      (Real.sin_le_one (3 * sun_m T (T * T)))
    constructor <;> linarith [hb1.1, hb1.2, hb2.1, hb2.2, hb3.1, hb3.2]
  have he : 0.0142 ≤ sun_e T (T * T) ∧ sun_e T (T * T) ≤ 0.0192 := by
    unfold sun_e
    constructor <;> nlinarith [hT.1, hT.2]
  have haber : -1.1e-4 ≤ sun_aber T (T * T) ∧ sun_aber T (T * T) ≤ 0 := by
    have hec := mul_sin_bound (by linarith [he.1] : -(0.0192 : ℝ) ≤ sun_e T (T * T))
      he.2 (Real.neg_one_le_cos (sun_nu T (T * T))) (Real.cos_le_one (sun_nu T (T * T)))
    have hden1 : 0.98 ≤ 1 + sun_e T (T * T) * Real.cos (sun_nu T (T * T)) := by
      linarith [hec.1]
    have hden2 : 1 + sun_e T (T * T) * Real.cos (sun_nu T (T * T)) ≤ 1.0192 := by
      linarith [hec.2]
    have hnum : 0.99963 ≤ 1 - sun_e T (T * T) * sun_e T (T * T) := by
      nlinarith [he.1, he.2]
    have hnum2 : 1 - sun_e T (T * T) * sun_e T (T * T) ≤ 1 := by
      nlinarith [he.1, he.2]
    have hdist_lo : 0.98 ≤ sun_dist T (T * T) := by
      unfold sun_dist
      rw [le_div_iff₀ (by linarith)]
      nlinarith
    have hdist_pos : 0 < sun_dist T (T * T) := by linarith
    constructor
    · show -1.1e-4 ≤ -9.93087e-5 / sun_dist T (T * T)
      rw [neg_div, neg_le_neg_iff, div_le_iff₀ hdist_pos]
      nlinarith
    · show -9.93087e-5 / sun_dist T (T * T) ≤ 0
      apply div_nonpos_of_nonpos_of_nonneg (by norm_num) hdist_pos.le
  have hdpsi := sun_dpsi_bound T (T * T) (T * T * T)
  have hMPI : (3141592 : ℝ) < MPI := by
    unfold MPI
    nlinarith [Real.pi_gt_d6]
  have hXbound : -MPI < sun_odot T (T * T) + sun_aber T (T * T)
      + sun_dpsi T (T * T) (T * T * T) := by
    unfold sun_odot
    linarith [hl0.1, hc.1, haber.1, hdpsi.1]
  rw [fmodC_MPI _ hXbound]
  exact ⟨rfl, posmod_nonneg _ _ TWO_PI_pos, posmod_lt _ _ TWO_PI_pos⟩

/-- Witness for `longitude_reduced_positive_floor_mod` at J2000.0. -/
theorem longitude_reduced_positive_floor_mod_witness :
    |timeTJC ⟨2000, 1, 1, 12, 0, 0⟩| ≤ 50
    ∧ 0 ≤ (SolTrack ⟨2000, 1, 1, 12, 0, 0⟩ ⟨0, 0⟩ pos0 1).longitude
    ∧ (SolTrack ⟨2000, 1, 1, 12, 0, 0⟩ ⟨0, 0⟩ pos0 1).longitude < TWO_PI := by
  have hT : |timeTJC ⟨2000, 1, 1, 12, 0, 0⟩| ≤ 50 := by
    unfold timeTJC
    norm_num [computeJulianDay]
  exact ⟨hT, (longitude_reduced_positive_floor_mod _ ⟨0, 0⟩ pos0 1 hT).2.1,
    (longitude_reduced_positive_floor_mod _ ⟨0, 0⟩ pos0 1 hT).2.2⟩

/-! ## Remote-epoch behaviour of the longitude reduction -/

lemma jd_remote (s : ℝ) :
    computeJulianDay (-600000) 1 1 0 0 s = -217424440.5 + s / 86400 := by
  simp only [computeJulianDay]
  norm_num
  ring

lemma timeTJC_remote (s : ℝ) :
    timeTJC ⟨-600000, 1, 1, 0, 0, s⟩ = (-219875985.5 + s / 86400) / 36525 := by
  unfold timeTJC
  rw [jd_remote]
  ring_nf

lemma remote_e_bounds (T : ℝ) (h1 : -6020 ≤ T) (h2 : T ≤ -5319) :
    sun_e T (T * T) ≤ -3.31 ∧ -4.36 ≤ sun_e T (T * T) := by
  unfold sun_e
  have hsq1 : 0 ≤ (T + 5319) * (T + 5319) := mul_self_nonneg _
  have hsq2 : 0 ≤ (T + 6020) * (T + 6020) := mul_self_nonneg _
  have hprod : 0 ≤ (T + 6020) * (-5319 - T) := by nlinarith
  constructor <;> nlinarith

/-- Aberration written with a single division whose denominator only involves
the eccentricity (valid unconditionally, by the algebra of division). -/
lemma sun_aber_eq (T T2 : ℝ) :
    sun_aber T T2 = -9.93087e-5 * (1 + sun_e T T2 * Real.cos (sun_nu T T2))
      / (1.000001018 * (1 - sun_e T T2 * sun_e T T2)) := by
  unfold sun_aber sun_dist
  rw [div_div_eq_mul_div]

lemma remote_B_bounds (T : ℝ) (h1 : -6020 ≤ T) (h2 : T ≤ -5319) :
    1.000001018 * (1 - sun_e T (T * T) * sun_e T (T * T)) ≤ -9.95
    ∧ -18.02 ≤ 1.000001018 * (1 - sun_e T (T * T) * sun_e T (T * T)) := by
  have he := remote_e_bounds T h1 h2
  constructor <;> nlinarith [he.1, he.2]

lemma remote_aber_bounds (T : ℝ) (h1 : -6020 ≤ T) (h2 : T ≤ -5319) :
    -5.4e-5 ≤ sun_aber T (T * T) ∧ sun_aber T (T * T) ≤ 5.4e-5 := by
  have he := remote_e_bounds T h1 h2
  have hB := remote_B_bounds T h1 h2
  have hec := mul_sin_bound (by linarith [he.2] : -(4.36 : ℝ) ≤ sun_e T (T * T))
    (by linarith [he.1]) (Real.neg_one_le_cos (sun_nu T (T * T)))
    (Real.cos_le_one (sun_nu T (T * T)))
  have hnum1 : -9.93087e-5 * (1 + sun_e T (T * T) * Real.cos (sun_nu T (T * T)))
      ≤ 5.33e-4 := by nlinarith [hec.1]
  have hnum2 : -5.33e-4
      ≤ -9.93087e-5 * (1 + sun_e T (T * T) * Real.cos (sun_nu T (T * T))) := by
    nlinarith [hec.2]
  have hBneg : 1.000001018 * (1 - sun_e T (T * T) * sun_e T (T * T)) < 0 := by
    linarith [hB.1]
  rw [sun_aber_eq]
  constructor
  · rw [le_div_iff_of_neg hBneg]
    nlinarith [hB.1, hB.2]
  · rw [div_le_iff_of_neg hBneg]
    nlinarith [hB.1, hB.2]

lemma remote_c_bounds (T : ℝ) (h1 : -6020 ≤ T) (h2 : T ≤ -5319) :
    -8.4 ≤ sun_c T (T * T) ∧ sun_c T (T * T) ≤ 8.4 := by
  have hprod : 0 ≤ (T + 6020) * (-5319 - T) := by nlinarith
  have hsq1 : 0 ≤ (T + 5319) * (T + 5319) := mul_self_nonneg _
  have hA : -8.38 ≤ 3.34161088e-2 - 8.40725e-5 * T - 2.443e-7 * (T * T)
      ∧ 3.34161088e-2 - 8.40725e-5 * T - 2.443e-7 * (T * T) ≤ -6.37 := by
    constructor <;> nlinarith
  have hB : -0.011 ≤ 3.489437e-4 - 1.76278e-6 * T
      ∧ 3.489437e-4 - 1.76278e-6 * T ≤ 0.011 := by
    constructor <;> nlinarith
  unfold sun_c
  have hb1 := mul_sin_bound hA.1 (by linarith [hA.2] :
      3.34161088e-2 - 8.40725e-5 * T - 2.443e-7 * (T * T) ≤ 8.38)
    (Real.neg_one_le_sin (sun_m T (T * T))) (Real.sin_le_one (sun_m T (T * T)))
  have hb2 := mul_sin_bound hB.1 hB.2 (Real.neg_one_le_sin (2 * sun_m T (T * T)))
    (Real.sin_le_one (2 * sun_m T (T * T)))
  have hb3 := mul_sin_bound (by norm_num : -(5.044e-6 : ℝ) ≤ 5.044e-6)
    (le_refl (5.044e-6 : ℝ)) (Real.neg_one_le_sin (3 * sun_m T (T * T)))
    (Real.sin_le_one (3 * sun_m T (T * T)))
  constructor <;> linarith [hb1.1, hb1.2, hb2.1, hb2.2, hb3.1, hb3.2]

lemma remote_l0_ub (T : ℝ) (h1 : -6020 ≤ T) (h2 : T ≤ -5319) :
    sun_l0 T (T * T) ≤ -3341901 := by
  unfold sun_l0
  have hprod : 0 ≤ (T + 6020) * (-5319 - T) := by nlinarith
  nlinarith

/-- On the remote range the whole reduced quantity, `MPI` included, is
negative: C `fmod` then returns a nonpositive value. -/
lemma remote_X_neg (T : ℝ) (h1 : -6020 ≤ T) (h2 : T ≤ -5319) :
    sun_odot T (T * T) + sun_aber T (T * T) + sun_dpsi T (T * T) (T * T * T)
      + MPI < 0 := by
  have hl0 := remote_l0_ub T h1 h2
  have hc := remote_c_bounds T h1 h2
  have haber := remote_aber_bounds T h1 h2
  have hdpsi := sun_dpsi_bound T (T * T) (T * T * T)
  have hMPI : MPI < 3141593 := by
    unfold MPI
    nlinarith [Real.pi_lt_d6]
  unfold sun_odot
  linarith [hc.2, haber.2, hdpsi.2]

set_option maxHeartbeats 4000000 in
/-- C5 (counterexample): the claim fails when quantified over every time
argument.  Along the one-parameter family of times
`{year := -600000, month := 1, day := 1, second := s}` the reduced quantity
stays below `-MPI`, so C `fmod` returns a nonpositive value; if the stored
longitude also equalled the positive floor-mod it would have to vanish, i.e.
the series value would be an exact multiple of `2π` at *every* such time —
impossible for a continuous function that climbs by far more than `2π` across
the family (intermediate value theorem). -/
theorem longitude_reduction_fails_for_remote_epochs :
    ¬(∀ (t : Time) (loc : Location) (p : Position) (ce : ℤ),
       (SolTrack t loc p ce).longitude
         = posmod (sun_odot (timeTJC t) (timeTJC t * timeTJC t)
             + sun_aber (timeTJC t) (timeTJC t * timeTJC t)
             + sun_dpsi (timeTJC t) (timeTJC t * timeTJC t)
                 (timeTJC t * timeTJC t * timeTJC t)) TWO_PI) := by
  intro hclaim
  set T0 : ℝ := -439751971 / 73050 with hT0def
  have hT0lo : (-6020 : ℝ) ≤ T0 := by rw [hT0def]; norm_num
  have hT0hi : T0 ≤ -6019 := by rw [hT0def]; norm_num
  set G : ℝ → ℝ := fun T => sun_odot T (T * T) + sun_aber T (T * T)
      + sun_dpsi T (T * T) (T * T * T) with hGdef
  have hA : ∀ T, T0 ≤ T → T ≤ T0 + 700 → ∃ k : ℤ, G T = TWO_PI * (k : ℝ) := by
    intro T h1 h2
    have hr1 : -6020 ≤ T := by linarith
    have hr2 : T ≤ -5319 := by linarith
    have htjc : timeTJC ⟨-600000, 1, 1, 0, 0, (T - T0) * 3155760000⟩ = T := by
      rw [timeTJC_remote, hT0def]
      field_simp
      ring
    have hlong := hclaim ⟨-600000, 1, 1, 0, 0, (T - T0) * 3155760000⟩ ⟨0, 0⟩ pos0 0
    rw [SolTrack_longitude_eq, htjc] at hlong
    have hlong' : fmodC (G T + MPI) TWO_PI = posmod (G T) TWO_PI := hlong
    have hneg : G T + MPI < 0 := remote_X_neg T hr1 hr2
    have hle : fmodC (G T + MPI) TWO_PI ≤ 0 := fmodC_nonpos _ _ hneg TWO_PI_pos
    have hge : 0 ≤ posmod (G T) TWO_PI := posmod_nonneg _ _ TWO_PI_pos
    have hzero : posmod (G T) TWO_PI = 0 := by
      rw [← hlong']
      exact le_antisymm hle (hlong' ▸ hge)
    exact ⟨⌊G T / TWO_PI⌋, posmod_eq_zero_imp _ _ hzero⟩
  obtain ⟨k0, hk0⟩ := hA T0 le_rfl (by linarith)
  obtain ⟨k1, hk1⟩ := hA (T0 + 700) (by linarith) le_rfl
  have hdl0 : 439700 ≤ sun_l0 (T0 + 700) ((T0 + 700) * (T0 + 700))
      - sun_l0 T0 (T0 * T0) := by
    unfold sun_l0
    rw [hT0def]
    norm_num
  clear_value T0
  have hc0 := remote_c_bounds T0 (by linarith) (by linarith)
  have hc1 := remote_c_bounds (T0 + 700) (by linarith) (by linarith)
  have haber0 := remote_aber_bounds T0 (by linarith) (by linarith)
  have haber1 := remote_aber_bounds (T0 + 700) (by linarith) (by linarith)
  have hdpsi0 := sun_dpsi_bound T0 (T0 * T0) (T0 * T0 * T0)
  have hdpsi1 := sun_dpsi_bound (T0 + 700) ((T0 + 700) * (T0 + 700))
    ((T0 + 700) * (T0 + 700) * (T0 + 700))
  have hgap : 0 < G (T0 + 700) - G T0 := by
    have hG0 : G T0 = sun_odot T0 (T0 * T0) + sun_aber T0 (T0 * T0)
        + sun_dpsi T0 (T0 * T0) (T0 * T0 * T0) := rfl
    have hG1 : G (T0 + 700) = sun_odot (T0 + 700) ((T0 + 700) * (T0 + 700))
        + sun_aber (T0 + 700) ((T0 + 700) * (T0 + 700))
        + sun_dpsi (T0 + 700) ((T0 + 700) * (T0 + 700))
            ((T0 + 700) * (T0 + 700) * (T0 + 700)) := rfl
    rw [hG0, hG1]
    unfold sun_odot
    linarith [hdl0, hc0.1, hc0.2, hc1.1, hc1.2, haber0.1, haber0.2, haber1.1,
      haber1.2, hdpsi0.1, hdpsi0.2, hdpsi1.1, hdpsi1.2]
  have hk01 : k0 < k1 := by
    have hcast : (k0 : ℝ) < (k1 : ℝ) := by
      nlinarith [TWO_PI_pos, hk0, hk1]
    exact_mod_cast hcast
  have hcont : ContinuousOn G (Set.Icc T0 (T0 + 700)) := by
    have hc1' : Continuous (fun T : ℝ => sun_odot T (T * T)) := by
      simp only [sun_odot, sun_l0, sun_c, sun_m]
      fun_prop
    have hc2' : Continuous (fun T : ℝ => sun_dpsi T (T * T) (T * T * T)) := by
      simp only [sun_dpsi, sun_omg, sun_l0, sun_lm]
      fun_prop
    have hc3' : Continuous (fun T : ℝ =>
        -9.93087e-5 * (1 + sun_e T (T * T) * Real.cos (sun_nu T (T * T)))) := by
      simp only [sun_e, sun_nu, sun_m, sun_c]
      fun_prop
    have hc4' : Continuous (fun T : ℝ =>
        1.000001018 * (1 - sun_e T (T * T) * sun_e T (T * T))) := by
      simp only [sun_e]
      fun_prop
    have haberc : ContinuousOn (fun T : ℝ => sun_aber T (T * T))
        (Set.Icc T0 (T0 + 700)) := by
      have heq : ∀ T : ℝ, sun_aber T (T * T)
          = -9.93087e-5 * (1 + sun_e T (T * T) * Real.cos (sun_nu T (T * T)))
            / (1.000001018 * (1 - sun_e T (T * T) * sun_e T (T * T))) :=
        fun T => sun_aber_eq T (T * T)
      have hdiv : ContinuousOn (fun T : ℝ =>
          -9.93087e-5 * (1 + sun_e T (T * T) * Real.cos (sun_nu T (T * T)))
            / (1.000001018 * (1 - sun_e T (T * T) * sun_e T (T * T))))
          (Set.Icc T0 (T0 + 700)) := by
        apply ContinuousOn.div hc3'.continuousOn hc4'.continuousOn
        intro T hT
        have hB := remote_B_bounds T (by linarith [hT.1]) (by linarith [hT.2])
        linarith [hB.1]
      exact hdiv.congr fun T hT => heq T
    rw [hGdef]
    exact (hc1'.continuousOn.add haberc).add hc2'.continuousOn
  have hsub := intermediate_value_Icc (by linarith : T0 ≤ T0 + 700) hcont
  have hy : TWO_PI * (k0 : ℝ) + Real.pi ∈ Set.Icc (G T0) (G (T0 + 700)) := by
    constructor
    · rw [hk0]
      linarith [Real.pi_pos]
    · rw [hk1]
      have hk01' : (k0 : ℝ) + 1 ≤ (k1 : ℝ) := by
        have := Int.add_one_le_iff.mpr hk01
        exact_mod_cast this
      have h2 : TWO_PI = 2 * Real.pi := rfl
      nlinarith [Real.pi_pos]
  obtain ⟨Ts, hTsmem, hGTs⟩ := hsub hy
  obtain ⟨ks, hks⟩ := hA Ts hTsmem.1 hTsmem.2
  rw [hks] at hGTs
  have hpieq : Real.pi * (2 * (ks : ℝ) - 2 * (k0 : ℝ) - 1) = 0 := by
    have h2 : TWO_PI = 2 * Real.pi := rfl
    rw [h2] at hGTs
    linarith [hGTs]
  have hintzero : (2 * (ks : ℝ) - 2 * (k0 : ℝ) - 1) = 0 := by
    rcases mul_eq_zero.mp hpieq with h | h
    · exact absurd h Real.pi_ne_zero
    · exact h
  have hfin : ((2 * ks - 2 * k0 - 1 : ℤ) : ℝ) = 0 := by
    push_cast
    linarith
  have : (2 * ks - 2 * k0 - 1 : ℤ) = 0 := by exact_mod_cast hfin
  omega
